import Mathlib

/-!
Verification of the IndexedDB utility module (src/IndexedDBUtil.ts).

The module wraps the asynchronous, callback-driven IndexedDB engine in
promise-returning CRUD operations.  We give a shallow embedding: the
engine state is an association list of named databases, each carrying an
integer schema version and an association list of named object stores;
each store is an association list from keys to items.  Every exported
function of the module is translated to a Lean function over this state.

Asynchronous settlement is made explicit: an operation yields a
Settlement (resolved with a value, rejected with an error, or never
settling, which models a promise whose executor registers no handler on
the path taken), together with the number of times the connection was
closed (the code calls db.close() only inside transaction.oncomplete)
and the resulting engine state.

Engine semantics embedded (from the IndexedDB specification, the part
the module relies on):
- indexedDB.open(name, v): if the database is absent it is created at
  version v (v defaults to the current version, or 1 on creation when no
  version is requested) and the upgrade callback runs; if present with a
  stored version greater than v the open request errors with a
  VersionError; equal versions open directly; a larger requested version
  runs the upgrade callback and bumps the stored version.
- A request error whose event is not cancelled aborts the transaction;
  an aborted transaction fires its abort event, never its complete
  event.  The module only registers oncomplete, so db.close() runs
  exactly when the transaction commits.
- update registers no error handler on its initial get request, so a
  failing get aborts the transaction with nothing settling the promise.

Request errors raised by the engine itself (disk faults, quota) are
injected through an explicit fault parameter on each request slot.
-/

namespace IndexedDBUtil

/-- Errors surfaced by the modelled engine and module. -/
inductive Err where
  | notSupported
  | versionError
  | notFound
  | invalidState
  | engine (code : Nat)
deriving DecidableEq, Repr

/-- Settlement of a promise: resolved, rejected, or never settling. -/
inductive Settlement (α : Type) where
  | resolved (value : α)
  | rejected (error : Err)
  | never
deriving DecidableEq, Repr

/-- Transaction access mode (IDBTransactionMode). -/
inductive Mode where
  | readonly
  | readwrite
deriving DecidableEq, Repr

/-- An object store: association list from keys to stored items. -/
abbrev Store (Key Val : Type) := List (Key × Val)

/-- The named object stores of one database. -/
abbrev Stores (Key Val : Type) := List (String × Store Key Val)

/-- One database: schema version plus named object stores. -/
structure StoredDB (Key Val : Type) where
  version : Nat
  stores : Stores Key Val
deriving DecidableEq, Repr

/-- The engine state: association list of named databases. -/
abbrev Env (Key Val : Type) := List (String × StoredDB Key Val)

/-- Association-list lookup. -/
def lookupAssoc {α β : Type} [DecidableEq α] : List (α × β) → α → Option β
  | [], _ => none
  | (x, y) :: rest, a => if x = a then some y else lookupAssoc rest a

/-- Association-list insert-or-replace (IndexedDB put semantics). -/
def putAssoc {α β : Type} [DecidableEq α] : List (α × β) → α → β → List (α × β)
  | [], a, b => [(a, b)]
  | (x, y) :: rest, a, b =>
      if x = a then (x, b) :: rest else (x, y) :: putAssoc rest a b

/-- Association-list removal of a key (IndexedDB delete semantics). -/
def eraseAssoc {α β : Type} [DecidableEq α] : List (α × β) → α → List (α × β)
  | [], _ => []
  | (x, y) :: rest, a =>
      if x = a then eraseAssoc rest a else (x, y) :: eraseAssoc rest a

/-- The single request a transaction callback issues against a store. -/
inductive Request (Key Val : Type) where
  | put (item : Val) (key : Key)
  | get (key : Key)
  | getAll
  | del (key : Key)
  | clear

/-- Result carried by a successful request settlement. -/
inductive ReqResult (Key Val : Type) where
  | key (k : Key)
  | val (v : Option Val)
  | vals (vs : List Val)
  | unit
deriving DecidableEq, Repr

variable {Key Val : Type} [DecidableEq Key]

/-- Engine semantics of one store request: updated store and result.
put resolves with the key, get with the value or undefined, getAll with
every stored item, delete and clear with undefined. -/
def runRequest (s : Store Key Val) : Request Key Val → Store Key Val × ReqResult Key Val
  | .put item key => (putAssoc s key item, .key key)
  | .get key => (s, .val (lookupAssoc s key))
  | .getAll => (s, .vals (s.map Prod.snd))
  | .del key => (eraseAssoc s key, .unit)
  | .clear => ([], .unit)

/-- The onupgradeneeded handler of openDB (lines 24-31 of the source):
create the named object store only when it is not already present. -/
def upgradeCallback (storeName : String) (stores : Stores Key Val) : Stores Key Val :=
  if (lookupAssoc stores storeName).isSome then stores
  else stores ++ [(storeName, [])]

/-- Engine semantics of indexedDB.open(dbName, reqVersion) with the
given upgrade handler.  Returns the engine state after the open plus the
version of the opened connection, or the open error. -/
def engineOpen (env : Env Key Val) (dbName : String) (reqVersion : Option Nat)
    (upgrade : Stores Key Val → Stores Key Val) :
    Except Err (Env Key Val × Nat) :=
  match lookupAssoc env dbName with
  | none =>
      .ok (putAssoc env dbName ⟨reqVersion.getD 1, upgrade []⟩, reqVersion.getD 1)
  | some db =>
      match reqVersion with
      | none => .ok (env, db.version)
      | some v =>
          if v < db.version then .error .versionError
          else if v = db.version then .ok (env, v)
          else .ok (putAssoc env dbName ⟨v, upgrade db.stores⟩, v)

/-- openDB (source lines 2-33).  Checks platform support, then issues
indexedDB.open(dbName, newVersion ?? 1): the requested version is 1
whenever no newVersion argument is given. -/
def openDB (supported : Bool) (env : Env Key Val) (dbName storeName : String)
    (newVersion : Option Nat) : Except Err (Env Key Val × Nat) :=
  if supported then
    engineOpen env dbName (some (newVersion.getD 1)) (upgradeCallback storeName)
  else
    .error .notSupported

/-- deleteDB (source lines 39-49): engine-level database deletion; no
connection is opened.  The delete request resolves, so only the engine
state matters here. -/
def deleteDB (env : Env Key Val) (dbName : String) : Env Key Val :=
  eraseAssoc env dbName

/-- getCurrentDBVersion (source lines 52-67): opens with no explicit
version and no upgrade handler, reads the version, closes at once. -/
def getCurrentDBVersion (env : Env Key Val) (dbName : String) :
    Except Err (Env Key Val × Nat) :=
  engineOpen env dbName none (fun stores => stores)

/-- Outcome of one module operation: how the returned promise settles,
how many times db.close() ran, and the engine state afterwards. -/
structure OpOutcome (Key Val : Type) where
  settled : Settlement (ReqResult Key Val)
  closes : Nat
  env : Env Key Val
deriving DecidableEq, Repr

/-- transactionPromise (source lines 87-110).  Opens a transaction on
the store, issues the single request of the callback, resolves on the
request success event and rejects on its error event; db.close() is
registered only on transaction.oncomplete.  A request error is not
cancelled, so the engine aborts the transaction: the complete event
never fires and the connection is not closed on that path.  A missing
store makes db.transaction throw inside the promise executor, which
rejects the promise.  The fault argument injects an engine-side request
error. -/
def transactionPromise (env : Env Key Val) (dbName storeName : String) (mode : Mode)
    (req : Request Key Val) (fault : Option Err) : OpOutcome Key Val :=
  match lookupAssoc env dbName with
  | none => ⟨.rejected .invalidState, 0, env⟩
  | some db =>
      match lookupAssoc db.stores storeName with
      | none => ⟨.rejected .notFound, 0, env⟩
      | some s =>
          match fault with
          | some e => ⟨.rejected e, 0, env⟩
          | none =>
              ⟨.resolved (runRequest s req).2, 1,
                putAssoc env dbName
                  ⟨db.version, putAssoc db.stores storeName (runRequest s req).1⟩⟩

/-- set (source lines 119-129): open at the default version, then put. -/
def set (supported : Bool) (env : Env Key Val) (dbName storeName : String)
    (item : Val) (key : Key) (fault : Option Err) : OpOutcome Key Val :=
  match openDB supported env dbName storeName none with
  | .error e => ⟨.rejected e, 0, env⟩
  | .ok (env2, _) =>
      transactionPromise env2 dbName storeName .readwrite (.put item key) fault

/-- getSpecific (source lines 136-145): open, then get by key. -/
def getSpecific (supported : Bool) (env : Env Key Val) (dbName storeName : String)
    (key : Key) (fault : Option Err) : OpOutcome Key Val :=
  match openDB supported env dbName storeName none with
  | .error e => ⟨.rejected e, 0, env⟩
  | .ok (env2, _) =>
      transactionPromise env2 dbName storeName .readonly (.get key) fault

/-- getAll (source lines 151-159): open, then getAll. -/
def getAll (supported : Bool) (env : Env Key Val) (dbName storeName : String)
    (fault : Option Err) : OpOutcome Key Val :=
  match openDB supported env dbName storeName none with
  | .error e => ⟨.rejected e, 0, env⟩
  | .ok (env2, _) =>
      transactionPromise env2 dbName storeName .readonly .getAll fault

/-- update (source lines 173-199): open, then inside one readwrite
transaction issue get(key); only inside the get success handler issue
put(item, key), resolving or rejecting on the put settlement.  No error
handler is registered on the get request, so a failing get aborts the
transaction and nothing ever settles the promise; db.close() is again
only registered on transaction.oncomplete, so an abort also skips the
close.  getFault and putFault inject engine-side errors on the two
request slots. -/
def update (supported : Bool) (env : Env Key Val) (dbName storeName : String)
    (item : Val) (key : Key) (getFault putFault : Option Err) : OpOutcome Key Val :=
  match openDB supported env dbName storeName none with
  | .error e => ⟨.rejected e, 0, env⟩
  | .ok (env2, _) =>
      match lookupAssoc env2 dbName with
      | none => ⟨.rejected .invalidState, 0, env2⟩
      | some db =>
          match lookupAssoc db.stores storeName with
          | none => ⟨.rejected .notFound, 0, env2⟩
          | some s =>
              match getFault with
              | some _ => ⟨.never, 0, env2⟩
              | none =>
                  match putFault with
                  | some e => ⟨.rejected e, 0, env2⟩
                  | none =>
                      ⟨.resolved (.key key), 1,
                        putAssoc env2 dbName
                          ⟨db.version,
                            putAssoc db.stores storeName (putAssoc s key item)⟩⟩

/-- remove (source lines 205-214): open, then delete by key. -/
def remove (supported : Bool) (env : Env Key Val) (dbName storeName : String)
    (key : Key) (fault : Option Err) : OpOutcome Key Val :=
  match openDB supported env dbName storeName none with
  | .error e => ⟨.rejected e, 0, env⟩
  | .ok (env2, _) =>
      transactionPromise env2 dbName storeName .readwrite (.del key) fault

/-- clear (source lines 220-228): open, then clear the store. -/
def clear (supported : Bool) (env : Env Key Val) (dbName storeName : String)
    (fault : Option Err) : OpOutcome Key Val :=
  match openDB supported env dbName storeName none with
  | .error e => ⟨.rejected e, 0, env⟩
  | .ok (env2, _) =>
      transactionPromise env2 dbName storeName .readwrite .clear fault

/-- addObjectStore (source lines 71-84): read the current version, open
at version + 1 with the new store as migration target, then put the
seed item through the transaction bridge. -/
def addObjectStore (supported : Bool) (env : Env Key Val) (dbName newStoreName : String)
    (item : Val) (key : Key) (fault : Option Err) : OpOutcome Key Val :=
  match getCurrentDBVersion env dbName with
  | .error e => ⟨.rejected e, 0, env⟩
  | .ok (env2, currentVersion) =>
      match openDB supported env2 dbName newStoreName (some (currentVersion + 1)) with
      | .error e => ⟨.rejected e, 0, env2⟩
      | .ok (env3, _) =>
          transactionPromise env3 dbName newStoreName .readwrite (.put item key) fault

/-- The stored version of a named database, when it exists. -/
def versionOf (env : Env Key Val) (dbName : String) : Option Nat :=
  (lookupAssoc env dbName).map StoredDB.version

/-- Version comparison lifted to possibly-absent databases: trivially
true when either side is absent. -/
def verLe : Option Nat → Option Nat → Bool
  | some a, some b => decide (a ≤ b)
  | _, _ => true

/-- The names of the object stores of a database, in creation order. -/
def storeNames (env : Env Key Val) (dbName : String) : List String :=
  match lookupAssoc env dbName with
  | some db => db.stores.map Prod.fst
  | none => []

/-- The version a caller of getCurrentDBVersion observes (0 is
unreachable: the version read never fails in this model). -/
def inspectVersion (env : Env Key Val) (dbName : String) : Nat :=
  match getCurrentDBVersion env dbName with
  | .ok (_, v) => v
  | .error _ => 0

/-- Concrete engine state: testDB at version 1, store testStore holding
item 100 at key 5. -/
def envV1 : Env Nat Nat := [("testDB", ⟨1, [("testStore", [(5, 100)])]⟩)]

/-- Concrete engine state: as envV1 but the stored version is 2. -/
def envV2 : Env Nat Nat := [("testDB", ⟨2, [("testStore", [(5, 100)])]⟩)]

/-! Association-list lemmas. -/

theorem lookupAssoc_putAssoc_self {α β : Type} [DecidableEq α]
    (l : List (α × β)) (a : α) (b : β) :
    lookupAssoc (putAssoc l a b) a = some b := by
  induction l with
  | nil => simp [putAssoc, lookupAssoc]
  | cons hd tl ih =>
      obtain ⟨x, y⟩ := hd
      by_cases hx : x = a
      · simp [putAssoc, lookupAssoc, hx]
      · simp [putAssoc, lookupAssoc, hx, ih]

theorem putAssoc_putAssoc {α β : Type} [DecidableEq α]
    (l : List (α × β)) (a : α) (b c : β) :
    putAssoc (putAssoc l a b) a c = putAssoc l a c := by
  induction l with
  | nil => simp [putAssoc]
  | cons hd tl ih =>
      obtain ⟨x, y⟩ := hd
      by_cases hx : x = a
      · simp [putAssoc, hx]
      · simp [putAssoc, hx, ih]

theorem putAssoc_lookup_self {α β : Type} [DecidableEq α]
    {l : List (α × β)} {a : α} {b : β} (h : lookupAssoc l a = some b) :
    putAssoc l a b = l := by
  induction l with
  | nil => simp [lookupAssoc] at h
  | cons hd tl ih =>
      obtain ⟨x, y⟩ := hd
      by_cases hx : x = a
      · simp [lookupAssoc, hx] at h
        simp [putAssoc, hx, h]
      · simp [lookupAssoc, hx] at h
        simp [putAssoc, hx, ih h]

theorem map_fst_putAssoc {α β : Type} [DecidableEq α]
    {l : List (α × β)} {a : α} (b : β) (h : (lookupAssoc l a).isSome) :
    (putAssoc l a b).map Prod.fst = l.map Prod.fst := by
  induction l with
  | nil => simp [lookupAssoc] at h
  | cons hd tl ih =>
      obtain ⟨x, y⟩ := hd
      by_cases hx : x = a
      · simp [putAssoc, hx]
      · simp [lookupAssoc, hx] at h
        simp [putAssoc, hx, ih h]

theorem mem_map_fst_putAssoc {α β : Type} [DecidableEq α]
    (l : List (α × β)) (a : α) (b : β) :
    a ∈ (putAssoc l a b).map Prod.fst := by
  induction l with
  | nil => simp [putAssoc]
  | cons hd tl ih =>
      obtain ⟨x, y⟩ := hd
      by_cases hx : x = a
      · simp [putAssoc, hx]
      · simp [putAssoc, hx]
        right
        simpa using ih

theorem eraseAssoc_lookup_none {α β : Type} [DecidableEq α]
    {l : List (α × β)} {a : α} (h : lookupAssoc l a = none) :
    eraseAssoc l a = l := by
  induction l with
  | nil => simp [eraseAssoc]
  | cons hd tl ih =>
      obtain ⟨x, y⟩ := hd
      by_cases hx : x = a
      · simp [lookupAssoc, hx] at h
      · simp [lookupAssoc, hx] at h
        simp [eraseAssoc, hx, ih h]

theorem lookupAssoc_eraseAssoc_self {α β : Type} [DecidableEq α]
    (l : List (α × β)) (a : α) :
    lookupAssoc (eraseAssoc l a) a = none := by
  induction l with
  | nil => simp [eraseAssoc, lookupAssoc]
  | cons hd tl ih =>
      obtain ⟨x, y⟩ := hd
      by_cases hx : x = a
      · simp [eraseAssoc, hx, ih]
      · simp [eraseAssoc, lookupAssoc, hx, ih]

theorem lookupAssoc_append_of_none {α β : Type} [DecidableEq α]
    {l : List (α × β)} {a : α} (l2 : List (α × β)) (h : lookupAssoc l a = none) :
    lookupAssoc (l ++ l2) a = lookupAssoc l2 a := by
  induction l with
  | nil => simp
  | cons hd tl ih =>
      obtain ⟨x, y⟩ := hd
      by_cases hx : x = a
      · simp [lookupAssoc, hx] at h
      · simp [lookupAssoc, hx] at h
        simp [lookupAssoc, hx, ih h]

/-! Lemmas about the migration callback. -/

theorem upgradeCallback_lookup (st : String) (stores : Stores Key Val) :
    lookupAssoc (upgradeCallback st stores) st =
      some ((lookupAssoc stores st).getD []) := by
  unfold upgradeCallback
  cases h : lookupAssoc stores st with
  | some s => simp [h]
  | none => simp [h, lookupAssoc_append_of_none _ h, lookupAssoc]

theorem upgradeCallback_of_isSome {st : String} {stores : Stores Key Val}
    (h : (lookupAssoc stores st).isSome) :
    upgradeCallback st stores = stores := by
  unfold upgradeCallback
  simp [h]

theorem upgradeCallback_idem (st : String) (stores : Stores Key Val) :
    upgradeCallback st (upgradeCallback st stores) = upgradeCallback st stores := by
  apply upgradeCallback_of_isSome
  simp [upgradeCallback_lookup]

/-! Lemmas about opening at the default version. -/

theorem openDB_at_one {env : Env Key Val} {n : String} {db : StoredDB Key Val}
    (h1 : lookupAssoc env n = some db) (h2 : db.version = 1) (st : String) :
    openDB true env n st none = .ok (env, 1) := by
  unfold openDB engineOpen
  simp [h1, h2]

theorem openDB_default_version_lt {env : Env Key Val} {n : String}
    {db : StoredDB Key Val} (h1 : lookupAssoc env n = some db)
    (h2 : 2 ≤ db.version) (st : String) :
    openDB true env n st none = .error .versionError := by
  unfold openDB engineOpen
  have hlt : 1 < db.version := h2
  simp [h1, hlt]

theorem openDB_default_ok {env env2 : Env Key Val} {n st : String} {v : Nat}
    (h : openDB true env n st none = .ok (env2, v)) :
    ∃ db2 : StoredDB Key Val, lookupAssoc env2 n = some db2 ∧ db2.version = 1 := by
  unfold openDB engineOpen at h
  simp only [if_pos, Option.getD] at h
  cases hdb : lookupAssoc env n with
  | none =>
      rw [hdb] at h
      simp only [Except.ok.injEq, Prod.mk.injEq] at h
      refine ⟨⟨1, upgradeCallback st []⟩, ?_, rfl⟩
      rw [← h.1]
      exact lookupAssoc_putAssoc_self env n _
  | some db =>
      rw [hdb] at h
      by_cases hlt : 1 < db.version
      · simp [hlt] at h
      · by_cases heq : 1 = db.version
        · simp [hlt, heq] at h
          refine ⟨db, ?_, heq.symm⟩
          rw [← h.1]
          exact hdb
        · simp [hlt, heq] at h
          refine ⟨⟨1, upgradeCallback st db.stores⟩, ?_, rfl⟩
          rw [← h.1]
          exact lookupAssoc_putAssoc_self env n _

/-! Lemmas about version evolution. -/

theorem verLe_refl (a : Option Nat) : verLe a a = true := by
  cases a <;> simp [verLe]

theorem verLe_none_right (a : Option Nat) : verLe a none = true := by
  cases a <;> rfl

theorem versionOf_engineOpen {env env2 : Env Key Val} {n : String}
    {rv : Option Nat} {up : Stores Key Val → Stores Key Val} {v : Nat}
    (h : engineOpen env n rv up = .ok (env2, v)) :
    ∃ w, versionOf env2 n = some w ∧ verLe (versionOf env n) (some w) = true := by
  unfold engineOpen at h
  cases hdb : lookupAssoc env n with
  | none =>
      rw [hdb] at h
      simp only [Except.ok.injEq, Prod.mk.injEq] at h
      refine ⟨rv.getD 1, ?_, ?_⟩
      · rw [← h.1]
        simp [versionOf, lookupAssoc_putAssoc_self]
      · simp [versionOf, hdb, verLe]
  | some db =>
      rw [hdb] at h
      cases rv with
      | none =>
          simp only [Except.ok.injEq, Prod.mk.injEq] at h
          refine ⟨db.version, ?_, ?_⟩
          · rw [← h.1]
            simp [versionOf, hdb]
          · simp [versionOf, hdb, verLe]
      | some w =>
          by_cases hlt : w < db.version
          · simp [hlt] at h
          · by_cases heq : w = db.version
            · simp [hlt, heq] at h
              refine ⟨db.version, ?_, ?_⟩
              · rw [← h.1]
                simp [versionOf, hdb]
              · simp [versionOf, hdb, verLe]
            · simp [hlt, heq] at h
              refine ⟨w, ?_, ?_⟩
              · rw [← h.1]
                simp [versionOf, lookupAssoc_putAssoc_self]
              · simp [versionOf, hdb, verLe]
                omega

theorem versionOf_transactionPromise (env : Env Key Val) (n st : String)
    (mode : Mode) (req : Request Key Val) (fault : Option Err) :
    versionOf (transactionPromise env n st mode req fault).env n = versionOf env n := by
  unfold transactionPromise
  cases hdb : lookupAssoc env n with
  | none => rfl
  | some db =>
      cases hs : lookupAssoc db.stores st with
      | none => simp [hs]
      | some s =>
          cases fault with
          | some e => simp [hs]
          | none => simp [hs, versionOf, lookupAssoc_putAssoc_self, hdb]

theorem versionOf_openDB {env env2 : Env Key Val} {n st : String}
    {nv : Option Nat} {v : Nat}
    (h : openDB true env n st nv = .ok (env2, v)) :
    ∃ w, versionOf env2 n = some w ∧ verLe (versionOf env n) (some w) = true := by
  unfold openDB at h
  simp only [if_pos] at h
  exact versionOf_engineOpen h

theorem versionOf_openTx (env : Env Key Val) (n st : String) (mode : Mode)
    (req : Request Key Val) (fault : Option Err) :
    verLe (versionOf env n)
      (versionOf
        (match openDB true env n st none with
          | .error e => (⟨.rejected e, 0, env⟩ : OpOutcome Key Val)
          | .ok (env2, _) => transactionPromise env2 n st mode req fault).env n)
      = true := by
  cases h : openDB true env n st none with
  | error e => exact verLe_refl _
  | ok p =>
      obtain ⟨env2, v⟩ := p
      obtain ⟨w, hw, hle⟩ := versionOf_openDB h
      simpa [versionOf_transactionPromise, hw] using hle

theorem versionOf_update (env : Env Key Val) (n st : String)
    (item : Val) (key : Key) (gf pf : Option Err) :
    verLe (versionOf env n)
      (versionOf (update true env n st item key gf pf).env n) = true := by
  unfold update
  cases h : openDB true env n st none with
  | error e => exact verLe_refl _
  | ok p =>
      obtain ⟨env2, v⟩ := p
      obtain ⟨w, hw, hle⟩ := versionOf_openDB h
      cases hdb : lookupAssoc env2 n with
      | none => simpa [hdb, hw] using hle
      | some db =>
          cases hs : lookupAssoc db.stores st with
          | none => simpa [hdb, hs, hw] using hle
          | some s =>
              cases gf with
              | some e => simpa [hdb, hs, hw] using hle
              | none =>
                  cases pf with
                  | some e => simpa [hdb, hs, hw] using hle
                  | none =>
                      have hv : db.version = w := by
                        have hver : versionOf env2 n = some db.version := by
                          simp [versionOf, hdb]
                        rw [hver] at hw
                        exact Option.some_injective _ hw
                      simpa [hdb, hs, versionOf, lookupAssoc_putAssoc_self, hv]
                        using hle

theorem versionOf_addObjectStore (env : Env Key Val) (n st : String)
    (item : Val) (key : Key) (f : Option Err) :
    verLe (versionOf env n)
      (versionOf (addObjectStore true env n st item key f).env n) = true := by
  unfold addObjectStore getCurrentDBVersion
  cases h : engineOpen env n none (fun stores => stores) with
  | error e => exact verLe_refl _
  | ok p =>
      obtain ⟨env2, c⟩ := p
      obtain ⟨w, hw, hle⟩ := versionOf_engineOpen h
      cases h2 : openDB true env2 n st (some (c + 1)) with
      | error e => simpa [h2, hw] using hle
      | ok p2 =>
          obtain ⟨env3, v3⟩ := p2
          obtain ⟨w2, hw2, hle2⟩ := versionOf_openDB h2
          have hww2 : w ≤ w2 := by
            rw [hw] at hle2
            simpa [verLe] using hle2
          have hchain : verLe (versionOf env n) (some w2) = true := by
            cases ha : versionOf env n with
            | none => rfl
            | some a =>
                rw [ha] at hle
                simp [verLe] at hle ⊢
                omega
          simpa [h2, versionOf_transactionPromise, hw2] using hchain

/-! Characterization of a fault-free addObjectStore run. -/

theorem addObjectStore_absent {env : Env Key Val} {n : String}
    (st : String) (item : Val) (key : Key) (h : lookupAssoc env n = none) :
    addObjectStore true env n st item key none =
      ⟨.resolved (.key key), 1, putAssoc env n ⟨2, [(st, [(key, item)])]⟩⟩ := by
  unfold addObjectStore getCurrentDBVersion openDB engineOpen transactionPromise
  simp [h, lookupAssoc_putAssoc_self, putAssoc_putAssoc, upgradeCallback,
    lookupAssoc, putAssoc, runRequest]

theorem addObjectStore_present {env : Env Key Val} {n : String}
    {db : StoredDB Key Val} (st : String) (item : Val) (key : Key)
    (h : lookupAssoc env n = some db) :
    addObjectStore true env n st item key none =
      ⟨.resolved (.key key), 1,
        putAssoc env n
          ⟨db.version + 1,
            putAssoc (upgradeCallback st db.stores) st
              (putAssoc ((lookupAssoc db.stores st).getD []) key item)⟩⟩ := by
  have hne1 : ¬ (db.version + 1 < db.version) := by omega
  have hne2 : ¬ (db.version + 1 = db.version) := by omega
  unfold addObjectStore getCurrentDBVersion openDB engineOpen transactionPromise
  simp [h, hne1, hne2, lookupAssoc_putAssoc_self, putAssoc_putAssoc,
    upgradeCallback_lookup, runRequest]

/-! Further helper lemmas shared by claim theorems. -/

theorem update_none_eq_set (sup : Bool) (env : Env Key Val) (n st : String)
    (item : Val) (k : Key) :
    update sup env n st item k none none = set sup env n st item k none := by
  unfold update set transactionPromise
  cases hop : openDB sup env n st none with
  | error e => simp [hop]
  | ok p =>
      obtain ⟨env2, v⟩ := p
      simp only [hop]
      cases hdb : lookupAssoc env2 n with
      | none => simp [hdb]
      | some db =>
          cases hs : lookupAssoc db.stores st with
          | none => simp [hdb, hs]
          | some s => simp [hdb, hs, runRequest]

theorem set_ok_shape {env : Env Key Val} {n st : String} {item : Val} {k : Key}
    {rv : ReqResult Key Val}
    (h : (set true env n st item k none).settled = .resolved rv) :
    ∃ env2 db2 s, lookupAssoc env2 n = some db2 ∧ db2.version = 1 ∧
      (set true env n st item k none).env =
        putAssoc env2 n ⟨db2.version, putAssoc db2.stores st (putAssoc s k item)⟩ := by
  unfold set at h ⊢
  split at h
  next e heq => simp at h
  next env2 v heq =>
      obtain ⟨db2, hdb2, hver⟩ := openDB_default_ok heq
      unfold transactionPromise at h
      split at h
      next hdbx => simp at h
      next db hdbx =>
          split at h
          next hsx => simp at h
          next s hsx =>
              have hdd : db2 = db := by
                have hss := hdb2.symm.trans hdbx
                exact Option.some_injective _ hss
              subst hdd
              exact ⟨env2, db2, s, hdb2, hver,
                by simp [transactionPromise, hdbx, hsx, runRequest]⟩

theorem getSpecific_after_put {env2 : Env Key Val} {n st : String}
    {db2 : StoredDB Key Val} (hdb2 : lookupAssoc env2 n = some db2)
    (hver : db2.version = 1) (s : Store Key Val) (item : Val) (k : Key) :
    (getSpecific true
        (putAssoc env2 n ⟨db2.version, putAssoc db2.stores st (putAssoc s k item)⟩)
        n st k none).settled = .resolved (.val (some item)) := by
  have hE : lookupAssoc
      (putAssoc env2 n ⟨db2.version, putAssoc db2.stores st (putAssoc s k item)⟩) n
      = some ⟨db2.version, putAssoc db2.stores st (putAssoc s k item)⟩ :=
    lookupAssoc_putAssoc_self _ _ _
  have hopen2 := openDB_at_one hE hver st
  simp [getSpecific, hopen2, transactionPromise, hE, lookupAssoc_putAssoc_self,
    runRequest]

theorem addObjectStore_second_run {env1 : Env Key Val} {n : String}
    {db1 : StoredDB Key Val} (st : String) (item : Val) (k : Key)
    (h : lookupAssoc env1 n = some db1)
    (hs : (lookupAssoc db1.stores st).isSome) :
    (addObjectStore true env1 n st item k none).settled = .resolved (.key k) ∧
    storeNames (addObjectStore true env1 n st item k none).env n = storeNames env1 n := by
  have h2 := addObjectStore_present st item k h
  rw [h2]
  refine ⟨rfl, ?_⟩
  simp [storeNames, lookupAssoc_putAssoc_self, h, upgradeCallback_of_isSome hs,
    map_fst_putAssoc _ hs]

/-! The claim theorems. -/

/-- C1, counterexample: the claim says every CRUD operation closes its
connection exactly once whether the request succeeds or fails.  On the
concrete state envV1, a set whose put request errors rejects the
promise, but the transaction aborts, so the oncomplete handler that
alone calls db.close() never fires: the connection is closed zero
times, not once. -/
theorem C1_counterexample :
    (set true envV1 "testDB" "testStore" 7 5 (some (Err.engine 0))).settled =
      Settlement.rejected (Err.engine 0) ∧
    (set true envV1 "testDB" "testStore" 7 5 (some (Err.engine 0))).closes = 0 :=
  ⟨rfl, rfl⟩

/-- C1, amended: on an existing database at version 1 whose store
exists, every CRUD operation that succeeds closes the connection
exactly once (via transaction completion), and every CRUD operation
whose collection request errors closes it zero times, because the
aborted transaction never fires its completion handler. -/
theorem C1_amended (env : Env Key Val) (n st : String) (item : Val) (k : Key)
    (db : StoredDB Key Val) (s : Store Key Val)
    (h1 : lookupAssoc env n = some db) (h2 : db.version = 1)
    (h3 : lookupAssoc db.stores st = some s) :
    ((set true env n st item k none).closes = 1 ∧
     (getSpecific true env n st k none).closes = 1 ∧
     (getAll true env n st none).closes = 1 ∧
     (update true env n st item k none none).closes = 1 ∧
     (remove true env n st k none).closes = 1 ∧
     (clear true env n st none).closes = 1) ∧
    ∀ e : Err,
      (set true env n st item k (some e)).closes = 0 ∧
      (getSpecific true env n st k (some e)).closes = 0 ∧
      (getAll true env n st (some e)).closes = 0 ∧
      (update true env n st item k (some e) none).closes = 0 ∧
      (update true env n st item k none (some e)).closes = 0 ∧
      (remove true env n st k (some e)).closes = 0 ∧
      (clear true env n st (some e)).closes = 0 := by
  have hopen := openDB_at_one h1 h2
  refine ⟨?_, fun e => ?_⟩ <;>
    simp [set, getSpecific, getAll, update, remove, clear, hopen,
      transactionPromise, h1, h3]

/-- C1, witness for the amended theorem at a concrete state. -/
theorem C1_witness :
    (set true envV1 "testDB" "testStore" 7 5 none).closes = 1 ∧
    (set true envV1 "testDB" "testStore" 7 5 (some (Err.engine 2))).closes = 0 :=
  ⟨(C1_amended envV1 "testDB" "testStore" 7 5 ⟨1, [("testStore", [(5, 100)])]⟩
      [(5, 100)] rfl rfl rfl).1.1,
   ((C1_amended envV1 "testDB" "testStore" 7 5 ⟨1, [("testStore", [(5, 100)])]⟩
      [(5, 100)] rfl rfl rfl).2 (Err.engine 2)).1⟩

/-- C2, counterexample: the claim says an openDB call without a
targetVersion issues the open request with no version, so the engine
resolves the stored version.  On envV2 (stored version 2) the code
rejects with a version error, whereas an engine open issued with no
version (second conjunct) succeeds and reports version 2: the code
must therefore be requesting a fixed version, namely 1. -/
theorem C2_counterexample :
    openDB true envV2 "testDB" "testStore" none = Except.error Err.versionError ∧
    engineOpen envV2 "testDB" none (upgradeCallback "testStore") =
      Except.ok (envV2, 2) :=
  ⟨rfl, rfl⟩

/-- C2, amended: openDB called without an explicit targetVersion issues
the open request with version 1 (it is identical to passing 1), so on a
database whose stored version exceeds 1 the open rejects with a version
error instead of resolving at the stored version. -/
theorem C2_amended (env : Env Key Val) (n st : String) (db : StoredDB Key Val)
    (h1 : lookupAssoc env n = some db) (h2 : 2 ≤ db.version) :
    openDB true env n st none = openDB true env n st (some 1) ∧
    openDB true env n st none = .error .versionError :=
  ⟨rfl, openDB_default_version_lt h1 h2 st⟩

/-- C2, witness for the amended theorem at a concrete state. -/
theorem C2_witness :
    openDB true envV2 "testDB" "testStore" none =
      openDB true envV2 "testDB" "testStore" (some 1) ∧
    openDB true envV2 "testDB" "testStore" none = .error .versionError :=
  C2_amended envV2 "testDB" "testStore" ⟨2, [("testStore", [(5, 100)])]⟩ rfl
    (by decide)

/-- C3, counterexample: the claim says every collection request that
settles with an error makes the operation reject with that cause.  On
envV1, when the initial get request of update errors, the returned
promise never settles at all, so the failure is swallowed rather than
rejected. -/
theorem C3_counterexample :
    (update true envV1 "testDB" "testStore" 7 5 (some (Err.engine 3)) none).settled =
      Settlement.never :=
  rfl

/-- C3, amended: for set, getSpecific, getAll, remove, clear and for
the write request of update, a request error rejects the returned
future with the original cause; but an error on the initial get request
of update is not propagated: that future never settles. -/
theorem C3_amended (env : Env Key Val) (n st : String) (item : Val) (k : Key)
    (db : StoredDB Key Val) (s : Store Key Val)
    (h1 : lookupAssoc env n = some db) (h2 : db.version = 1)
    (h3 : lookupAssoc db.stores st = some s) :
    (∀ e : Err,
      (set true env n st item k (some e)).settled = .rejected e ∧
      (getSpecific true env n st k (some e)).settled = .rejected e ∧
      (getAll true env n st (some e)).settled = .rejected e ∧
      (remove true env n st k (some e)).settled = .rejected e ∧
      (clear true env n st (some e)).settled = .rejected e ∧
      (update true env n st item k none (some e)).settled = .rejected e) ∧
    ∀ (e : Err) (pf : Option Err),
      (update true env n st item k (some e) pf).settled = Settlement.never := by
  have hopen := openDB_at_one h1 h2
  refine ⟨fun e => ?_, fun e pf => ?_⟩ <;>
    simp [set, getSpecific, getAll, update, remove, clear, hopen,
      transactionPromise, h1, h3]

/-- C3, witness for the amended theorem at a concrete state. -/
theorem C3_witness :
    (set true envV1 "testDB" "testStore" 7 5 (some (Err.engine 4))).settled =
      Settlement.rejected (Err.engine 4) ∧
    (update true envV1 "testDB" "testStore" 7 5 (some (Err.engine 4)) none).settled =
      Settlement.never :=
  ⟨((C3_amended envV1 "testDB" "testStore" 7 5 ⟨1, [("testStore", [(5, 100)])]⟩
      [(5, 100)] rfl rfl rfl).1 (Err.engine 4)).1,
   (C3_amended envV1 "testDB" "testStore" 7 5 ⟨1, [("testStore", [(5, 100)])]⟩
      [(5, 100)] rfl rfl rfl).2 (Err.engine 4) none⟩

/-- C9: openDB called without a targetVersion always requests version 1
from the engine (it equals an open at version 1, for every state), so
on a database whose stored version is at least 2 every facade operation
that opens at the default version rejects at open time with the version
error and leaves the engine state untouched. -/
theorem C9_default_version_one (env : Env Key Val) (n st : String)
    (item : Val) (k : Key) (f g : Option Err) (db : StoredDB Key Val)
    (h1 : lookupAssoc env n = some db) (h2 : 2 ≤ db.version) :
    (∀ (sup : Bool) (e2 : Env Key Val) (n2 s2 : String),
        openDB sup e2 n2 s2 none = openDB sup e2 n2 s2 (some 1)) ∧
    (set true env n st item k f).settled = .rejected .versionError ∧
    (set true env n st item k f).env = env ∧
    (getSpecific true env n st k f).settled = .rejected .versionError ∧
    (getSpecific true env n st k f).env = env ∧
    (getAll true env n st f).settled = .rejected .versionError ∧
    (getAll true env n st f).env = env ∧
    (update true env n st item k f g).settled = .rejected .versionError ∧
    (update true env n st item k f g).env = env ∧
    (remove true env n st k f).settled = .rejected .versionError ∧
    (remove true env n st k f).env = env ∧
    (clear true env n st f).settled = .rejected .versionError ∧
    (clear true env n st f).env = env := by
  have hopen := openDB_default_version_lt h1 h2
  refine ⟨fun sup e2 n2 s2 => rfl, ?_⟩
  simp [set, getSpecific, getAll, update, remove, clear, hopen]

/-- C9, witness at a concrete state whose stored version is 2. -/
theorem C9_witness :
    (set true envV2 "testDB" "testStore" 7 5 none).settled =
      Settlement.rejected Err.versionError ∧
    (getAll true envV2 "testDB" "testStore" none).env = envV2 :=
  ⟨(C9_default_version_one envV2 "testDB" "testStore" 7 5 none none
      ⟨2, [("testStore", [(5, 100)])]⟩ rfl (by decide)).2.1,
   (C9_default_version_one envV2 "testDB" "testStore" 7 5 none none
      ⟨2, [("testStore", [(5, 100)])]⟩ rfl (by decide)).2.2.2.2.2.2.1⟩

/-- C10: when the initial get request inside update settles with an
error, the promise returned by update never settles: the code registers
no error handler on the read request and only registers the write
handlers inside the success handler of the read. -/
theorem C10_update_read_error (env : Env Key Val) (n st : String)
    (item : Val) (k : Key) (db : StoredDB Key Val) (s : Store Key Val)
    (h1 : lookupAssoc env n = some db) (h2 : db.version = 1)
    (h3 : lookupAssoc db.stores st = some s) (e : Err) (pf : Option Err) :
    (update true env n st item k (some e) pf).settled = Settlement.never := by
  have hopen := openDB_at_one h1 h2
  simp [update, hopen, h1, h3]

/-- C10, witness at a concrete state. -/
theorem C10_witness :
    (update true envV1 "testDB" "testStore" 9 5 (some (Err.engine 1)) none).settled =
      Settlement.never :=
  C10_update_read_error envV1 "testDB" "testStore" 9 5
    ⟨1, [("testStore", [(5, 100)])]⟩ [(5, 100)] rfl rfl rfl (Err.engine 1) none

/-- C4: for any serializable item and any valid key, a successful
set(db, coll, item, key) followed by getSpecific(db, coll, key)
resolves with a value equal to the stored item. -/
theorem C4_roundtrip (env : Env Key Val) (n st : String) (item : Val) (k : Key)
    (rv : ReqResult Key Val)
    (h : (set true env n st item k none).settled = .resolved rv) :
    (getSpecific true (set true env n st item k none).env n st k none).settled =
      Settlement.resolved (.val (some item)) := by
  obtain ⟨env2, db2, s, hdb2, hver, hEnv⟩ := set_ok_shape h
  rw [hEnv]
  exact getSpecific_after_put hdb2 hver s item k

/-- C4, witness at a concrete state. -/
theorem C4_witness :
    (getSpecific true (set true envV1 "testDB" "testStore" 7 5 none).env
        "testDB" "testStore" 5 none).settled =
      Settlement.resolved (.val (some 7)) :=
  C4_roundtrip envV1 "testDB" "testStore" 7 5 (.key 5) rfl

/-- C5: for a key that is not present in the collection, update
succeeds and produces exactly the same outcome and final engine state
as set for that key (upsert semantics).  The first conjunct is the full
outcome equality, the second exhibits the success. -/
theorem C5_update_upsert (env : Env Key Val) (n st : String) (item : Val) (k : Key)
    (db : StoredDB Key Val) (s : Store Key Val)
    (h1 : lookupAssoc env n = some db) (h2 : db.version = 1)
    (h3 : lookupAssoc db.stores st = some s) (h4 : lookupAssoc s k = none) :
    update true env n st item k none none = set true env n st item k none ∧
    (update true env n st item k none none).settled = .resolved (.key k) := by
  refine ⟨update_none_eq_set true env n st item k, ?_⟩
  have hopen := openDB_at_one h1 h2
  simp [update, hopen, h1, h3]

/-- C5, witness at a concrete state with the absent key 9. -/
theorem C5_witness :
    update true envV1 "testDB" "testStore" 7 9 none none =
      set true envV1 "testDB" "testStore" 7 9 none ∧
    (update true envV1 "testDB" "testStore" 7 9 none none).settled =
      Settlement.resolved (.key 9) :=
  C5_update_upsert envV1 "testDB" "testStore" 7 9
    ⟨1, [("testStore", [(5, 100)])]⟩ [(5, 100)] rfl rfl rfl rfl

/-- C6: running the migration path twice with the same collection name
never errors on the second run and does not duplicate the collection:
both runs resolve, the store name is present after the first run, the
store-name list is unchanged by the second run, and the upgrade
callback itself is idempotent. -/
theorem C6_idempotent_migration (env : Env Key Val) (n st : String)
    (item : Val) (k : Key) :
    (addObjectStore true env n st item k none).settled = .resolved (.key k) ∧
    (addObjectStore true (addObjectStore true env n st item k none).env
        n st item k none).settled = .resolved (.key k) ∧
    st ∈ storeNames (addObjectStore true env n st item k none).env n ∧
    storeNames (addObjectStore true (addObjectStore true env n st item k none).env
        n st item k none).env n
      = storeNames (addObjectStore true env n st item k none).env n ∧
    ∀ stores : Stores Key Val,
      upgradeCallback st (upgradeCallback st stores) = upgradeCallback st stores := by
  cases hdb : lookupAssoc env n with
  | none =>
      have h1 := addObjectStore_absent st item k hdb
      have hr1 : lookupAssoc
          (putAssoc env n (⟨2, [(st, [(k, item)])]⟩ : StoredDB Key Val)) n
          = some ⟨2, [(st, [(k, item)])]⟩ := lookupAssoc_putAssoc_self _ _ _
      have hsome : (lookupAssoc
          ((⟨2, [(st, [(k, item)])]⟩ : StoredDB Key Val)).stores st).isSome := by
        simp [lookupAssoc]
      have h2 := addObjectStore_second_run st item k hr1 hsome
      refine ⟨by rw [h1], ?_, ?_, ?_, fun stores => upgradeCallback_idem st stores⟩
      · rw [h1]
        exact h2.1
      · rw [h1]
        simp [storeNames, hr1]
      · rw [h1]
        exact h2.2
  | some db =>
      have h1 := addObjectStore_present st item k hdb
      have hr1 : lookupAssoc
          (putAssoc env n
            (⟨db.version + 1,
              putAssoc (upgradeCallback st db.stores) st
                (putAssoc ((lookupAssoc db.stores st).getD []) k item)⟩ :
              StoredDB Key Val)) n
          = some ⟨db.version + 1,
              putAssoc (upgradeCallback st db.stores) st
                (putAssoc ((lookupAssoc db.stores st).getD []) k item)⟩ :=
        lookupAssoc_putAssoc_self _ _ _
      have hsome : (lookupAssoc
          ((⟨db.version + 1,
              putAssoc (upgradeCallback st db.stores) st
                (putAssoc ((lookupAssoc db.stores st).getD []) k item)⟩ :
              StoredDB Key Val)).stores st).isSome := by
        simp [lookupAssoc_putAssoc_self]
      have h2 := addObjectStore_second_run st item k hr1 hsome
      refine ⟨by rw [h1], ?_, ?_, ?_, fun stores => upgradeCallback_idem st stores⟩
      · rw [h1]
        exact h2.1
      · rw [h1]
        have hmem := mem_map_fst_putAssoc (upgradeCallback st db.stores) st
          (putAssoc ((lookupAssoc db.stores st).getD []) k item)
        simpa [storeNames, hr1] using hmem
      · rw [h1]
        exact h2.2

/-- C7: a successful addObjectStore strictly increases the version a
subsequent inspection reports, and the stored schema version of a
database is monotonically non-decreasing across every operation of the
facade (the six CRUD operations with arbitrary injected faults,
addObjectStore, and deleteDB, which removes the database and so is
covered vacuously). -/
theorem C7_version_monotone (env : Env Key Val) (n st : String)
    (item : Val) (k : Key) (f g : Option Err) :
    ((addObjectStore true env n st item k none).settled = .resolved (.key k) ∧
     inspectVersion (addObjectStore true env n st item k none).env n =
       inspectVersion env n + 1) ∧
    verLe (versionOf env n) (versionOf (set true env n st item k f).env n) = true ∧
    verLe (versionOf env n) (versionOf (getSpecific true env n st k f).env n) = true ∧
    verLe (versionOf env n) (versionOf (getAll true env n st f).env n) = true ∧
    verLe (versionOf env n) (versionOf (update true env n st item k f g).env n) = true ∧
    verLe (versionOf env n) (versionOf (remove true env n st k f).env n) = true ∧
    verLe (versionOf env n) (versionOf (clear true env n st f).env n) = true ∧
    verLe (versionOf env n)
      (versionOf (addObjectStore true env n st item k f).env n) = true ∧
    verLe (versionOf env n) (versionOf (deleteDB env n) n) = true := by
  refine ⟨?_, ?_, ?_, ?_, versionOf_update env n st item k f g, ?_, ?_,
    versionOf_addObjectStore env n st item k f, ?_⟩
  · cases hdb : lookupAssoc env n with
    | none =>
        rw [addObjectStore_absent st item k hdb]
        refine ⟨rfl, ?_⟩
        simp [inspectVersion, getCurrentDBVersion, engineOpen, hdb,
          lookupAssoc_putAssoc_self]
    | some db =>
        rw [addObjectStore_present st item k hdb]
        refine ⟨rfl, ?_⟩
        simp [inspectVersion, getCurrentDBVersion, engineOpen, hdb,
          lookupAssoc_putAssoc_self]
  · exact versionOf_openTx env n st .readwrite (.put item k) f
  · exact versionOf_openTx env n st .readonly (.get k) f
  · exact versionOf_openTx env n st .readonly .getAll f
  · exact versionOf_openTx env n st .readwrite (.del k) f
  · exact versionOf_openTx env n st .readwrite .clear f
  · have hnone : versionOf (deleteDB env n) n = none := by
      simp [versionOf, deleteDB, lookupAssoc_eraseAssoc_self]
    rw [hnone]
    exact verLe_none_right _

/-- C8: removing an absent key resolves successfully (it does not
reject) and leaves the entire engine state, in particular the
collection contents, unchanged. -/
theorem C8_remove_absent (env : Env Key Val) (n st : String) (k : Key)
    (db : StoredDB Key Val) (s : Store Key Val)
    (h1 : lookupAssoc env n = some db) (h2 : db.version = 1)
    (h3 : lookupAssoc db.stores st = some s) (h4 : lookupAssoc s k = none) :
    (remove true env n st k none).settled = .resolved .unit ∧
    (remove true env n st k none).env = env := by
  have hopen := openDB_at_one h1 h2
  constructor
  · simp [remove, hopen, transactionPromise, h1, h3, runRequest]
  · have hEnv : (remove true env n st k none).env =
        putAssoc env n ⟨db.version, putAssoc db.stores st (eraseAssoc s k)⟩ := by
      simp [remove, hopen, transactionPromise, h1, h3, runRequest]
    rw [hEnv, eraseAssoc_lookup_none h4, putAssoc_lookup_self h3]
    have heta : (⟨db.version, db.stores⟩ : StoredDB Key Val) = db := rfl
    rw [heta]
    exact putAssoc_lookup_self h1

/-- C8, witness at a concrete state with the absent key 9. -/
theorem C8_witness :
    (remove true envV1 "testDB" "testStore" 9 none).settled =
      Settlement.resolved .unit ∧
    (remove true envV1 "testDB" "testStore" 9 none).env = envV1 :=
  C8_remove_absent envV1 "testDB" "testStore" 9
    ⟨1, [("testStore", [(5, 100)])]⟩ [(5, 100)] rfl rfl rfl rfl

end IndexedDBUtil
